import Mathlib

/-!
Shallow embedding of the zlig build backend (src/zlig/_wheels.py and
src/zlig/__init__.py) in Lean 4, together with theorems settling the
frozen claims about its specification.

Conventions of the embedding:
* Python strings are Lean `String`s; `str.split` with a one-character
  separator is `List.splitOn` on the string's character list, which agrees
  with Python including the edge cases (empty string, adjacent separators).
* `pathlib.Path` values are modelled as lists of path components
  (`List String`); `Path.joinpath` and `Path(a, b)` are list append.
* Ambient interpreter/OS state read lazily by `_Platform` properties
  (`packaging.tags.sys_tags()`, `sysconfig` variables) is snapshotted into
  fields of the `_Platform` structure; the global `os.name` consulted by
  `python_lib_name` is kept as a separate explicit argument, because the
  source reads the module-level `os.name` there rather than the
  structure's own field.
* Python exceptions that the claims mention are an explicit error type
  (`PyError`), and fallible code returns `Except PyError _` or `Option _`.
* The filesystem is a partial map from paths to files; a file is its byte
  content plus a modification time, which is what `filecmp.cmp` (in its
  default shallow mode) and `shutil.copy2` inspect and preserve.
-/

namespace Zlig

/-- A packaging compatibility tag triple, as in `packaging.tags.Tag`
(fields `interpreter`, `abi`, `platform`). -/
structure Tag where
  interpreter : String
  abi : String
  platform : String
deriving DecidableEq, Repr

/-- Rendering of a `packaging.tags.Tag` by `str()`:
`interpreter-abi-platform`.  Used by `WHEEL_TEMPLATE.format`. -/
def Tag.render (t : Tag) : String :=
  t.interpreter ++ "-" ++ t.abi ++ "-" ++ t.platform

/-- Embedding of `_Platform` (src/zlig/_wheels.py lines 60-98).  The
`os_name` and `py_major`/`py_minor` fields are the named-tuple fields
`os_name` and `py_version`; `ext_suffix` and `tag` snapshot the values the
lazy properties `ext_suffix` (sysconfig `EXT_SUFFIX`) and `tag`
(first entry of `packaging.tags.sys_tags()`) read from ambient
interpreter configuration. -/
structure _Platform where
  os_name : String
  py_major : Nat
  py_minor : Nat
  ext_suffix : String
  tag : Tag
deriving DecidableEq, Repr

/-- Embedding of `_Platform.python_lib_name` (lines 74-84).  Note the
source tests the module-level global `os.name`, not `self.os_name`; the
global is the explicit first argument `ambient_os_name` here. -/
def _Platform.python_lib_name (ambient_os_name : String) (p : _Platform) : String :=
  if ambient_os_name ≠ "nt" then ""
  else "python" ++ Nat.repr p.py_major ++ Nat.repr p.py_minor

/-- Embedding of `_Extension` (lines 101-147): a qualified module name and
the declared source glob patterns. -/
structure _Extension where
  name : String
  patterns : List String
deriving DecidableEq, Repr

/-- Embedding of `_Extension.modname` (lines 105-112):
`self.name.rsplit(".", 1)[-1]`, i.e. the last dot-separated component. -/
def _Extension.modname (e : _Extension) : String :=
  String.mk ((e.name.data.splitOn '.').getLastD [])

/-- Embedding of `_Extension.directory_in_package` (lines 114-121):
`pathlib.Path(*self.name.split(".")[:-1])` as a list of path components.
(When the name has no dot the source builds `Path()`, which renders as
`"."` but contributes no real component when joined; here it is `[]`.) -/
def _Extension.directory_in_package (e : _Extension) : List String :=
  ((e.name.data.splitOn '.').dropLast).map String.mk

/-- Embedding of `_Extension.varname` (lines 123-132):
`self.name.replace(".", "_")` followed by `"_"` and the decimal rendering
of `self.name.count(".")`. -/
def _Extension.varname (e : _Extension) : String :=
  String.mk (e.name.data.map (fun c => if c = '.' then '_' else c))
    ++ "_" ++ Nat.repr (e.name.data.count '.')

/-- Embedding of `_Extension.get_target_path` (lines 134-143):
`directory_in_package / f"{modname}.{tag.interpreter}-{tag.platform}{ext_suffix}"`.
Note the filename uses the tag's interpreter and platform (not its abi). -/
def _Extension.get_target_path (e : _Extension) (p : _Platform) : List String :=
  e.directory_in_package
    ++ [e.modname ++ "." ++ p.tag.interpreter ++ "-" ++ p.tag.platform ++ p.ext_suffix]

/-- Python exceptions relevant to the claims: `ValueError` from tuple
unpacking, `NotImplementedError` (the configuration error raised by
`_get_config_var` and `_load_extension`), and
`subprocess.CalledProcessError` from `subprocess.run(check=True)`. -/
inductive PyError where
  | valueError : PyError
  | notImplementedError (msg : String) : PyError
  | calledProcessError (returncode : Nat) : PyError
deriving DecidableEq, Repr

/-- One entry of the `tool.zlig.extensions` array in pyproject.toml:
a `{name, sources}` pair. -/
structure ExtensionDecl where
  name : String
  sources : List String
deriving DecidableEq, Repr

/-- Splitting off everything before the first occurrence of `sep`, as in
Python `s.split(sep, 1)` for a one-character separator: `none` when `sep`
does not occur (Python then returns a one-element list, and a two-target
tuple unpacking of it raises `ValueError`). -/
def splitFirst (sep : Char) : List Char → Option (List Char × List Char)
  | [] => none
  | c :: cs =>
    if c = sep then some ([], cs)
    else (splitFirst sep cs).map (fun p => (c :: p.1, p.2))

/-- The first dot-separated component of a declared extension name, to the
left of `split(".", 1)`: `none` when the name has no dot. -/
def py_root (name : String) : Option String :=
  (splitFirst '.' name.data).map (fun p => String.mk p.1)

/-- Embedding of `_load_extension` (lines 150-154):
`root, name = decl["name"].split(".", 1)` raises `ValueError` when the
name has no dot; a root different from the module name raises
`NotImplementedError`; otherwise the `_Extension` keeps only the part
after the first dot. -/
def _load_extension (module_name : String) (decl : ExtensionDecl) :
    Except PyError _Extension :=
  match splitFirst '.' decl.name.data with
  | none => .error .valueError
  | some (root, rest) =>
    if String.mk root ≠ module_name then
      .error (.notImplementedError ("Extensions must be under '" ++ module_name ++ ".'"))
    else
      .ok ⟨String.mk rest, decl.sources⟩

/-- The extension-loading loop of `WheelBuilder.from_pyproject_toml`
(lines 171-174): a Python list comprehension, evaluated left to right, so
the first failing declaration's exception propagates. -/
def load_extensions (module_name : String) :
    List ExtensionDecl → Except PyError (List _Extension)
  | [] => .ok []
  | d :: ds =>
    match _load_extension module_name d with
    | .error e => .error e
    | .ok e =>
      match load_extensions module_name ds with
      | .error err => .error err
      | .ok es => .ok (e :: es)

instance {ε α : Type} [DecidableEq ε] [DecidableEq α] : DecidableEq (Except ε α) :=
  fun a b =>
    match a, b with
    | .error e₁, .error e₂ =>
      if h : e₁ = e₂ then .isTrue (by rw [h]) else .isFalse (by simp [h])
    | .ok x₁, .ok x₂ =>
      if h : x₁ = x₂ then .isTrue (by rw [h]) else .isFalse (by simp [h])
    | .error _, .ok _ => .isFalse (by simp)
    | .ok _, .error _ => .isFalse (by simp)

/-- Embedding of `WheelBuilder._run_zig_build` (lines 216-218):
`subprocess.run(args, check=True)` raises `CalledProcessError` exactly on
a non-zero exit status. -/
def _run_zig_build (exit_code : Nat) : Except PyError Unit :=
  if exit_code = 0 then .ok () else .error (.calledProcessError exit_code)

/-- Control flow of a wheel build as driven by `build_wheel`
(src/zlig/__init__.py lines 44-47): `WheelBuilder.from_pyproject_toml`
(which runs the extension-loading loop) completes before `wb.build()`
starts, and the zig build subprocess is only spawned inside `build()` via
`copy_module -> _compile_binaries -> _run_zig_build`.  The boolean records
whether the subprocess was invoked. -/
def build_pipeline (module_name : String) (decls : List ExtensionDecl)
    (zig_exit : Nat) : Except PyError (List _Extension) × Bool :=
  match load_extensions module_name decls with
  | .error e => (.error e, false)
  | .ok exts =>
    match _run_zig_build zig_exit with
    | .error e => (.error e, true)
    | .ok _ => (.ok exts, true)

/-- The model of the `WheelBuilder` state used by the claims: the fields
set in `from_pyproject_toml` (`_extensions`, `_extension_sources`), the
class attribute `_platform`, and the inherited flit attributes consulted
by the overridden methods (`self.module.name`, `self.module.path`,
`self.dist_info`).  `extension_sources` is the set of resolved absolute
source paths, kept as a list of path-component lists. -/
structure WheelBuilder where
  extensions : List _Extension
  extension_sources : List (List String)
  module_name : String
  module_path : List String
  dist_info : String
  platform : _Platform

/-- Embedding of the `WheelBuilder.wheel_filename` property (lines
182-190).  `pure_name` is the value of `super().wheel_filename`, the
generic platform-independent filename computed by flit.  With no
extensions it is returned unchanged; otherwise
`*parts, _, _, _ = pure_name.split("-")` (a `ValueError`, here `none`,
when there are fewer than three components) drops the trailing three
components, the current platform tag triple is appended, and the parts
are dash-joined with `".whl"` appended. -/
def WheelBuilder.wheel_filename (b : WheelBuilder) (pure_name : String) :
    Option String :=
  if b.extensions.isEmpty then some pure_name
  else
    let comps := pure_name.data.splitOn '-'
    if comps.length < 3 then none
    else
      let parts := comps.take (comps.length - 3)
        ++ [b.platform.tag.interpreter.data, b.platform.tag.abi.data,
            b.platform.tag.platform.data]
      some (String.mk (List.intercalate ['-'] parts ++ ".whl".data))

/-- Embedding of `WheelBuilder._add_file` (lines 192-196) acting on an
archive modelled as the list of `(full_path, rel_path)` entries added so
far.  `resolve` models `pathlib.Path(full_path).resolve()`; when the
resolved path is one of the cached extension-source paths the file is
suppressed, otherwise `super()._add_file` appends it to the archive. -/
def WheelBuilder._add_file (b : WheelBuilder) (resolve : String → List String)
    (archive : List (String × String)) (full_path rel_path : String) :
    List (String × String) :=
  if resolve full_path ∈ b.extension_sources then archive
  else archive ++ [(full_path, rel_path)]

/-- The generic file-adding loop: every package file goes through
`WheelBuilder._add_file` in order. -/
def WheelBuilder.add_files (b : WheelBuilder) (resolve : String → List String)
    (archive : List (String × String)) (files : List (String × String)) :
    List (String × String) :=
  files.foldl (fun acc f => b._add_file resolve acc f.1 f.2) archive

/-- A regular file as far as `filecmp.cmp` (shallow mode) and
`shutil.copy2` are concerned: byte content plus modification time. -/
structure File where
  content : List Nat
  mtime : Nat
deriving DecidableEq, Repr

/-- Paths are lists of components. -/
abbrev Path := List String

/-- A filesystem: a partial map from paths to files. -/
abbrev FS := Path → Option File

/-- Point update of a filesystem. -/
def fsSet (fs : FS) (p : Path) (f : File) : FS :=
  fun q => if q = p then some f else fs q

/-- Embedding of `filecmp.cmp(f1, f2)` with its default `shallow=True`,
for two existing regular files: equal stat signatures (size and mtime)
answer `true` without reading content; different sizes answer `false`;
otherwise the byte contents are compared. -/
def filecmp_cmp (f1 f2 : File) : Bool :=
  if f1.content.length = f2.content.length ∧ f1.mtime = f2.mtime then true
  else if f1.content.length ≠ f2.content.length then false
  else f1.content = f2.content

/-- Embedding of one iteration of the `WheelBuilder._copy_artifacts` loop
(lines 220-234) for one extension, given the compiled artifact's path and
the computed target path: if the target exists and `filecmp.cmp` deems it
equal to the compiled file, nothing happens (`continue`); otherwise
`shutil.copy2` copies content and metadata (mtime) over the target.
`none` models the `FileNotFoundError`/`OSError` raised by `filecmp.cmp`
or `shutil.copy2` when the compiled artifact is missing.  The boolean
records whether a filesystem write was performed. -/
def copy_artifact (fs : FS) (compiled target : Path) : Option (FS × Bool) :=
  match fs compiled with
  | none => none
  | some cf =>
    match fs target with
    | some tf =>
      if filecmp_cmp cf tf then some (fs, false)
      else some (fsSet fs target cf, true)
    | none => some (fsSet fs target cf, true)

/-- The full `_copy_artifacts` loop over the per-extension
(compiled, target) path pairs, also counting the writes performed. -/
def copy_artifacts (fs : FS) : List (Path × Path) → Option (FS × Nat)
  | [] => some (fs, 0)
  | (c, t) :: rest =>
    match copy_artifact fs c t with
    | none => none
    | some (fs', w) =>
      match copy_artifacts fs' rest with
      | none => none
      | some (fs'', n) => some (fs'', (if w then 1 else 0) + n)

/-- Where `_copy_artifacts` places the artifact of one extension:
`pathlib.Path(self.module.path, ext.get_target_path(self._platform))`. -/
def copy_target (module_path : Path) (e : _Extension) (p : _Platform) : Path :=
  module_path ++ e.get_target_path p

/-- Embedding of `WHEEL_TEMPLATE.format(version=..., tag=...)`
(lines 40-45 and 263-266): the four-line WHEEL file content, with a
trailing newline. -/
def wheel_template_render (version tag_str : String) : String :=
  "Wheel-Version: 1.0\n" ++ "Generator: zlig " ++ version ++ "\n"
    ++ "Root-Is-Purelib: false\n" ++ "Tag: " ++ tag_str ++ "\n"

/-- Embedding of `WheelBuilder._write_to_zip` (lines 246-258) reduced to
its effect on the archive entry list: with `ignore_wheel` set, a write to
`{dist_info}/WHEEL` is diverted into a discarded buffer; every other
write appends an entry. -/
def WheelBuilder._write_to_zip_entry (b : WheelBuilder)
    (archive : List (String × String)) (relname content : String)
    (ignore_wheel : Bool) : List (String × String) :=
  if ignore_wheel ∧ relname = b.dist_info ++ "/WHEEL" then archive
  else archive ++ [(relname, content)]

/-- Embedding of `WheelBuilder.write_metadata` (lines 270-272) together
with `_write_wheel` (lines 260-268): `super().write_metadata()` writes the
generic entries (here the abstract list `generic`, each entry passing
through `_write_to_zip` with `ignore_wheel=True`, so flit's own WHEEL file
is discarded), then `_write_wheel` writes the zlig WHEEL content with
`ignore_wheel=False`.  Nothing here consults `self._extensions`: the
override runs identically for a package with zero extensions. -/
def WheelBuilder.write_metadata (b : WheelBuilder) (zlig_version : String)
    (generic : List (String × String)) : List (String × String) :=
  let archive := generic.foldl
    (fun acc e => b._write_to_zip_entry acc e.1 e.2 true) []
  b._write_to_zip_entry archive (b.dist_info ++ "/WHEEL")
    (wheel_template_render zlig_version b.platform.tag.render) false

/-- A filesystem seen only as existence of paths, for the entry point's
temp-file bookkeeping. -/
abbrev ExistsFS := String → Bool

/-- Point update of path existence. -/
def exSet (fs : ExistsFS) (p : String) (v : Bool) : ExistsFS :=
  fun q => if q = p then v else fs q

/-- Embedding of `build_wheel` (src/zlig/__init__.py lines 32-54).
`tempfile.mkstemp` creates `temp` in `wheel_directory`; the whole build
sequence (constructing the builder, `wb.build()`, computing
`wb.wheel_filename`) runs inside the `try` block and is abstracted as
`build_result` — `.ok name` when it completes returning the computed
archive filename, `.error e` when any exception is raised.  On success
`os.replace` renames `temp` onto `wheel_directory/name` and `name` is
returned; on failure `os.unlink` removes `temp` and the original
exception is re-raised. -/
def build_wheel (fs : ExistsFS) (wheel_directory temp : String)
    (build_result : Except PyError String) : ExistsFS × Except PyError String :=
  let fs1 := exSet fs temp true
  match build_result with
  | .error e => (exSet fs1 temp false, .error e)
  | .ok name =>
    let wheel_path := wheel_directory ++ "/" ++ name
    (exSet (exSet fs1 wheel_path true) temp false, .ok name)

/-! ## Helper lemmas -/

/-- If the separator does not occur, `splitFirst` finds nothing (Python:
one-element split, so two-target unpacking raises `ValueError`). -/
theorem splitFirst_eq_none (sep : Char) (l : List Char) (h : sep ∉ l) :
    splitFirst sep l = none := by
  induction l with
  | nil => rfl
  | cons c cs ih =>
    simp only [List.mem_cons, not_or] at h
    simp [splitFirst, Ne.symm h.1, ih h.2]

/-- A failing declaration makes the whole extension-loading loop fail with
the namespacing error, provided every declaration's name has a dot (so no
earlier declaration can fail differently). -/
theorem load_extensions_error (module_name : String) (decls : List ExtensionDecl)
    (h1 : ∀ d ∈ decls, (py_root d.name).isSome)
    (h2 : ∃ d ∈ decls, py_root d.name ≠ some module_name) :
    load_extensions module_name decls =
      .error (.notImplementedError ("Extensions must be under '" ++ module_name ++ ".'")) := by
  induction decls with
  | nil => obtain ⟨d, hd, _⟩ := h2; exact absurd hd (List.not_mem_nil d)
  | cons d ds ih =>
    have hd1 : (py_root d.name).isSome := h1 d (List.mem_cons_self d ds)
    rcases hsp : splitFirst '.' d.name.data with _ | ⟨root, rest⟩
    · exfalso
      rw [py_root, hsp] at hd1
      simp at hd1
    by_cases hroot : String.mk root = module_name
    · have hload : _load_extension module_name d = .ok ⟨String.mk rest, d.sources⟩ := by
        simp [_load_extension, hsp, hroot]
      have h2' : ∃ d' ∈ ds, py_root d'.name ≠ some module_name := by
        obtain ⟨d', hd', hne⟩ := h2
        rcases List.mem_cons.mp hd' with heq | hmem
        · subst heq
          exact absurd (by simp [py_root, hsp, hroot]) hne
        · exact ⟨d', hmem, hne⟩
      have hih := ih (fun d' hd' => h1 d' (List.mem_cons_of_mem d hd')) h2'
      simp [load_extensions, hload, hih]
    · have hload : _load_extension module_name d =
          .error (.notImplementedError ("Extensions must be under '" ++ module_name ++ ".'")) := by
        simp [_load_extension, hsp, hroot]
      simp [load_extensions, hload]

/-! ## Claims C9, C3, C4, C2 -/

/-- C9: a declared extension whose name contains no dot at all makes
`_load_extension` fail with the `ValueError` from tuple unpacking, not
with the namespacing `NotImplementedError`; the namespacing check is only
reached for names containing a dot. -/
theorem claim_C9 (module_name : String) (decl : ExtensionDecl)
    (h : '.' ∉ decl.name.data) :
    _load_extension module_name decl = .error .valueError := by
  simp [_load_extension, splitFirst_eq_none '.' decl.name.data h]

/-- Witness for C9: the extension name `foo` (exactly the module name,
dotless) in package `foo` is rejected with `ValueError`. -/
theorem claim_C9_witness :
    '.' ∉ ("foo" : String).data ∧
      _load_extension "foo" ⟨"foo", []⟩ = .error .valueError :=
  ⟨by decide, claim_C9 "foo" ⟨"foo", []⟩ (by decide)⟩

/-- C3: if every declared extension name has a dot and at least one is
not namespaced under the package's module name, the build pipeline fails
while loading the project descriptor with the configuration error
(`NotImplementedError`), and the zig build subprocess is never invoked. -/
theorem claim_C3 (module_name : String) (decls : List ExtensionDecl)
    (zig_exit : Nat)
    (h1 : ∀ d ∈ decls, (py_root d.name).isSome)
    (h2 : ∃ d ∈ decls, py_root d.name ≠ some module_name) :
    build_pipeline module_name decls zig_exit =
      (.error (.notImplementedError ("Extensions must be under '" ++ module_name ++ ".'")),
        false) := by
  simp [build_pipeline, load_extensions_error module_name decls h1 h2]

/-- Witness for C3: package `foo` with the non-namespaced extension
`baz.rex` fails with the configuration error before the subprocess runs,
even though the zig build would have succeeded (exit code 0). -/
theorem claim_C3_witness :
    (∀ d ∈ [(⟨"baz.rex", ["src/rex.zig"]⟩ : ExtensionDecl)], (py_root d.name).isSome) ∧
      (∃ d ∈ [(⟨"baz.rex", ["src/rex.zig"]⟩ : ExtensionDecl)],
        py_root d.name ≠ some "foo") ∧
      build_pipeline "foo" [⟨"baz.rex", ["src/rex.zig"]⟩] 0 =
        (.error (.notImplementedError ("Extensions must be under '" ++ "foo" ++ ".'")), false) :=
  ⟨by decide, by decide,
    claim_C3 "foo" [⟨"baz.rex", ["src/rex.zig"]⟩] 0 (by decide) (by decide)⟩

/-- C4 (code bug): `python_lib_name` consults the module-level global
`os.name`, not the descriptor's own `os_name` field.  At the failing
input — a descriptor whose `os_name` field is `"nt"` evaluated while the
ambient `os.name` is `"posix"` — the code returns the empty string,
whereas the claim requires `"python39"`; conversely a `"posix"` descriptor
under an ambient `"nt"` yields `"python39"`, whereas the claim requires
the empty string. -/
theorem claim_C4_code_eval :
    _Platform.python_lib_name "posix" ⟨"nt", 3, 9, ".pyd", ⟨"cp39", "cp39", "win_amd64"⟩⟩ = ""
    ∧ ("" : String) ≠ "python39"
    ∧ _Platform.python_lib_name "nt" ⟨"posix", 3, 9, ".so", ⟨"cp39", "cp39", "linux_x86_64"⟩⟩
        = "python39" := by
  refine ⟨by decide, by decide, by decide⟩

/-- C2 (counterexample): for package `foo` with declared extension
`foo.bar.rex`, `_load_extension` strips the package root, so the loaded
extension's build-script identifier is `bar_rex_1`, not `foo_bar_rex_2`,
and its containing directory is `bar`, not `foo/bar`. -/
theorem claim_C2_counterexample :
    (_load_extension "foo" ⟨"foo.bar.rex", ["src/rex.zig"]⟩).map _Extension.varname
        = .ok "bar_rex_1"
    ∧ (Except.ok "bar_rex_1" : Except PyError String) ≠ .ok "foo_bar_rex_2"
    ∧ (_load_extension "foo" ⟨"foo.bar.rex", ["src/rex.zig"]⟩).map
        _Extension.directory_in_package = .ok ["bar"]
    ∧ (["bar"] : List String) ≠ ["foo", "bar"] := by
  refine ⟨by decide, by decide, by decide, by decide⟩

/-- C2 (amended): for package `foo` with declared extension
`foo.bar.rex`, the loaded extension has name `bar.rex`, bare module name
`rex`, containing directory `bar`, build-script identifier `bar_rex_1`,
and target path `bar/rex.<interpreter>-<platform><suffix>` relative to
the module directory, so that the artifact-copy step places it at
`<module path>/bar/rex.<interpreter>-<platform><suffix>` (under
`foo/bar/` when the module path is the package directory `foo`). -/
theorem claim_C2_amended (p : _Platform) :
    ∃ e : _Extension,
      _load_extension "foo" ⟨"foo.bar.rex", ["src/rex.zig"]⟩ = .ok e
      ∧ e.name = "bar.rex"
      ∧ e.varname = "bar_rex_1"
      ∧ e.modname = "rex"
      ∧ e.directory_in_package = ["bar"]
      ∧ e.get_target_path p =
          ["bar", "rex." ++ p.tag.interpreter ++ "-" ++ p.tag.platform ++ p.ext_suffix]
      ∧ ∀ module_path : Path, copy_target module_path e p =
          module_path ++
            ["bar", "rex." ++ p.tag.interpreter ++ "-" ++ p.tag.platform ++ p.ext_suffix] := by
  have hdir : _Extension.directory_in_package ⟨"bar.rex", ["src/rex.zig"]⟩ = ["bar"] := by
    decide
  have hmod : _Extension.modname ⟨"bar.rex", ["src/rex.zig"]⟩ = "rex" := by decide
  have hrex : ("rex" : String) ++ "." = "rex." := by decide
  have h6 : _Extension.get_target_path ⟨"bar.rex", ["src/rex.zig"]⟩ p =
      ["bar", "rex." ++ p.tag.interpreter ++ "-" ++ p.tag.platform ++ p.ext_suffix] := by
    simp only [_Extension.get_target_path]
    rw [hdir, hmod, hrex]
    rfl
  exact ⟨⟨"bar.rex", ["src/rex.zig"]⟩, by decide, by decide, by decide, by decide, by decide,
    h6, fun module_path => by rw [copy_target, h6]⟩

/-! ## Claim C1 -/

/-- C1: with zero declared extensions `wheel_filename` returns flit's
generic platform-independent filename unchanged; with at least one
declared extension, the generic filename (recovered as the dash-join of
its dash-split components) has its trailing three dash-separated
components replaced by the current platform tag's
(interpreter, abi, platform) triple, with `.whl` appended. -/
theorem claim_C1 (b : WheelBuilder) (pure_name : String)
    (pre : List (List Char)) (t1 t2 t3 : List Char) :
    (b.extensions = [] → b.wheel_filename pure_name = some pure_name)
    ∧ (b.extensions ≠ [] → pure_name.data.splitOn '-' = pre ++ [t1, t2, t3] →
        pure_name.data = List.intercalate ['-'] (pre ++ [t1, t2, t3])
        ∧ b.wheel_filename pure_name = some (String.mk (List.intercalate ['-']
            (pre ++ [b.platform.tag.interpreter.data, b.platform.tag.abi.data,
              b.platform.tag.platform.data]) ++ ".whl".data))) := by
  constructor
  · intro h
    simp [WheelBuilder.wheel_filename, h]
  · intro hne hsplit
    constructor
    · rw [← hsplit]
      exact (List.intercalate_splitOn pure_name.data '-').symm
    · have hemp : ¬b.extensions.isEmpty := by
        simpa [List.isEmpty_iff] using hne
      have hlen : (pure_name.data.splitOn '-').length = pre.length + 3 := by
        rw [hsplit]; simp
      have hnotlt : ¬(pure_name.data.splitOn '-').length < 3 := by omega
      have htake : (pure_name.data.splitOn '-').take
          ((pure_name.data.splitOn '-').length - 3) = pre := by
        rw [hsplit]
        have h3 : (pre ++ [t1, t2, t3]).length - 3 = pre.length := by simp
        rw [h3]
        exact List.take_left pre [t1, t2, t3]
      simp only [WheelBuilder.wheel_filename, hemp, if_false, Bool.false_eq_true,
        hnotlt, htake]

/-- Witness for C1: a zero-extension package keeps flit's
`foo-1.0-py3-none-any.whl` unchanged, while a one-extension package on a
cp39/linux platform turns it into `foo-1.0-cp39-cp39-linux_x86_64.whl`. -/
theorem claim_C1_witness :
    (WheelBuilder.wheel_filename
        ⟨[], [], "foo", ["foo"], "foo-1.0.dist-info",
          ⟨"posix", 3, 9, ".so", ⟨"cp39", "cp39", "linux_x86_64"⟩⟩⟩
        "foo-1.0-py3-none-any.whl" = some "foo-1.0-py3-none-any.whl")
    ∧ ("foo-1.0-py3-none-any.whl" : String).data =
        List.intercalate ['-']
          (["foo".data, "1.0".data] ++ ["py3".data, "none".data, "any.whl".data])
    ∧ WheelBuilder.wheel_filename
        ⟨[⟨"bar.rex", ["src/rex.zig"]⟩], [], "foo", ["foo"], "foo-1.0.dist-info",
          ⟨"posix", 3, 9, ".so", ⟨"cp39", "cp39", "linux_x86_64"⟩⟩⟩
        "foo-1.0-py3-none-any.whl"
        = some (String.mk (List.intercalate ['-']
            (["foo".data, "1.0".data] ++ ["cp39".data, "cp39".data, "linux_x86_64".data])
            ++ ".whl".data)) := by
  refine ⟨(claim_C1 _ "foo-1.0-py3-none-any.whl" [] [] [] []).1 rfl, ?_⟩
  have h := (claim_C1
    ⟨[⟨"bar.rex", ["src/rex.zig"]⟩], [], "foo", ["foo"], "foo-1.0.dist-info",
      ⟨"posix", 3, 9, ".so", ⟨"cp39", "cp39", "linux_x86_64"⟩⟩⟩
    "foo-1.0-py3-none-any.whl"
    ["foo".data, "1.0".data] "py3".data "none".data "any.whl".data).2
    (by decide) (by decide)
  exact h

/-! ## Claim C6 -/

/-- C6: the archive file-add step: the result equals the starting archive
plus exactly those files whose resolved path is not among the cached
extension-source paths (in order, unchanged), and consequently no file
whose resolved path is a cached extension-source path ever appears among
the entries added by the step. -/
theorem claim_C6 (b : WheelBuilder) (resolve : String → List String)
    (archive files : List (String × String)) :
    b.add_files resolve archive files =
      archive ++ files.filter (fun f => resolve f.1 ∉ b.extension_sources)
    ∧ ∀ f ∈ b.add_files resolve [] files, resolve f.1 ∉ b.extension_sources := by
  have key : ∀ (fs : List (String × String)) (arc : List (String × String)),
      b.add_files resolve arc fs =
        arc ++ fs.filter (fun f => resolve f.1 ∉ b.extension_sources) := by
    intro fs
    induction fs with
    | nil => intro arc; simp [WheelBuilder.add_files]
    | cons f fs ih =>
      intro arc
      by_cases hf : resolve f.1 ∈ b.extension_sources
      · have : b._add_file resolve arc f.1 f.2 = arc := by
          simp [WheelBuilder._add_file, hf]
        simp only [WheelBuilder.add_files, List.foldl_cons] at ih ⊢
        rw [this, ih arc, List.filter_cons]
        simp [hf]
      · have : b._add_file resolve arc f.1 f.2 = arc ++ [(f.1, f.2)] := by
          simp [WheelBuilder._add_file, hf]
        simp only [WheelBuilder.add_files, List.foldl_cons] at ih ⊢
        rw [this, ih (arc ++ [(f.1, f.2)]), List.filter_cons]
        simp [hf, List.append_assoc]
  refine ⟨key files archive, ?_⟩
  intro f hf
  rw [key files []] at hf
  simp only [List.nil_append, List.mem_filter, decide_eq_true_eq] at hf
  exact hf.2

/-- Witness for C6: with cached source set `{["x"]}` and resolution
prepending nothing, the added file `a` is present and its resolved path
is not a cached source path. -/
theorem claim_C6_witness :
    ¬(fun (s : String) => [s]) "a" ∈
      (WheelBuilder.extension_sources
        ⟨[], [["x"]], "foo", ["foo"], "di",
          ⟨"posix", 3, 9, ".so", ⟨"cp39", "cp39", "lx"⟩⟩⟩) :=
  (claim_C6
    ⟨[], [["x"]], "foo", ["foo"], "di", ⟨"posix", 3, 9, ".so", ⟨"cp39", "cp39", "lx"⟩⟩⟩
    (fun s => [s]) [] [("a", "a")]).2 ("a", "a") (by decide)

/-! ## Claim C8 -/

/-- C8: on any exception raised during the build sequence inside the
`try` block of `build_wheel` (including a zig subprocess exiting with
non-zero status, `.calledProcessError`), the temporary archive file is
deleted, the original exception propagates unmodified, and every other
path — in particular any intended final archive name — is exactly as it
was before the call.  On success the temporary file is renamed to the
computed archive filename inside the wheel directory and that filename is
returned. -/
theorem claim_C8 (fs : ExistsFS) (wheel_directory temp : String) :
    (∀ e : PyError,
        (build_wheel fs wheel_directory temp (.error e)).2 = .error e
        ∧ (build_wheel fs wheel_directory temp (.error e)).1 temp = false
        ∧ ∀ p, p ≠ temp → (build_wheel fs wheel_directory temp (.error e)).1 p = fs p)
    ∧ (∀ name : String, temp ≠ wheel_directory ++ "/" ++ name →
        (build_wheel fs wheel_directory temp (.ok name)).2 = .ok name
        ∧ (build_wheel fs wheel_directory temp (.ok name)).1
            (wheel_directory ++ "/" ++ name) = true
        ∧ (build_wheel fs wheel_directory temp (.ok name)).1 temp = false
        ∧ ∀ p, p ≠ temp → p ≠ wheel_directory ++ "/" ++ name →
            (build_wheel fs wheel_directory temp (.ok name)).1 p = fs p) := by
  constructor
  · intro e
    refine ⟨rfl, by simp [build_wheel, exSet], ?_⟩
    intro p hp
    simp [build_wheel, exSet, hp]
  · intro name hne
    refine ⟨rfl, by simp [build_wheel, exSet, Ne.symm hne], by simp [build_wheel, exSet], ?_⟩
    intro p hp1 hp2
    simp [build_wheel, exSet, hp1, hp2]

/-- Witness for C8: a zig subprocess failing with exit status 2 leaves no
temp file and no file under the final name, and the
`CalledProcessError` propagates; a successful build renames the temp file
to the computed wheel filename. -/
theorem claim_C8_witness :
    ((build_wheel (fun _ => false) "dist" "tmp123.whl"
        (.error (.calledProcessError 2))).2 = .error (.calledProcessError 2)
      ∧ (build_wheel (fun _ => false) "dist" "tmp123.whl"
          (.error (.calledProcessError 2))).1 "tmp123.whl" = false
      ∧ (build_wheel (fun _ => false) "dist" "tmp123.whl"
          (.error (.calledProcessError 2))).1 "dist/foo-1.0-cp39-cp39-linux_x86_64.whl"
          = (fun (_ : String) => false) "dist/foo-1.0-cp39-cp39-linux_x86_64.whl")
    ∧ ((build_wheel (fun _ => false) "dist" "tmp123.whl"
          (.ok "foo-1.0-cp39-cp39-linux_x86_64.whl")).2
            = .ok "foo-1.0-cp39-cp39-linux_x86_64.whl"
      ∧ (build_wheel (fun _ => false) "dist" "tmp123.whl"
          (.ok "foo-1.0-cp39-cp39-linux_x86_64.whl")).1
            ("dist" ++ "/" ++ "foo-1.0-cp39-cp39-linux_x86_64.whl") = true
      ∧ (build_wheel (fun _ => false) "dist" "tmp123.whl"
          (.ok "foo-1.0-cp39-cp39-linux_x86_64.whl")).1 "tmp123.whl" = false) := by
  have h1 := (claim_C8 (fun _ => false) "dist" "tmp123.whl").1 (.calledProcessError 2)
  have h2 := (claim_C8 (fun _ => false) "dist" "tmp123.whl").2
    "foo-1.0-cp39-cp39-linux_x86_64.whl" (by decide)
  exact ⟨⟨h1.1, h1.2.1, h1.2.2 "dist/foo-1.0-cp39-cp39-linux_x86_64.whl" (by decide)⟩,
    h2.1, h2.2.1, h2.2.2.1⟩

/-! ## Claim C10 -/

/-- The generic metadata pass never leaves a `WHEEL` entry in the
archive: every generic write goes through `_write_to_zip` with
`ignore_wheel` set, which discards writes to `{dist_info}/WHEEL`. -/
theorem write_metadata_generic_no_wheel (b : WheelBuilder)
    (generic : List (String × String)) (acc : List (String × String))
    (hacc : acc.filter (fun e => e.1 = b.dist_info ++ "/WHEEL") = []) :
    (generic.foldl (fun acc e => b._write_to_zip_entry acc e.1 e.2 true) acc).filter
      (fun e => e.1 = b.dist_info ++ "/WHEEL") = [] := by
  induction generic generalizing acc with
  | nil => simpa using hacc
  | cons g gs ih =>
    simp only [List.foldl_cons]
    apply ih
    by_cases hg : g.1 = b.dist_info ++ "/WHEEL"
    · simpa [WheelBuilder._write_to_zip_entry, hg] using hacc
    · simp [WheelBuilder._write_to_zip_entry, hg, List.filter_append, hacc]

/-- C10: for every build — the metadata override never consults the
extension list, so also for zero declared extensions — the archive's
`WHEEL` entries are exactly one entry, `{dist_info}/WHEEL`, whose content
is the rendered template; and when the version and rendered tag are
newline-free that content consists of exactly the four lines
`Wheel-Version: 1.0`, `Generator: zlig <version>`,
`Root-Is-Purelib: false` and `Tag: <platform tag>`, with a trailing
newline (the final empty piece of the newline split). -/
theorem claim_C10 (b : WheelBuilder) (zlig_version : String)
    (generic : List (String × String))
    (hv : '\n' ∉ zlig_version.data) (ht : '\n' ∉ b.platform.tag.render.data) :
    (b.write_metadata zlig_version generic).filter
        (fun e => e.1 = b.dist_info ++ "/WHEEL")
      = [(b.dist_info ++ "/WHEEL",
          wheel_template_render zlig_version b.platform.tag.render)]
    ∧ (wheel_template_render zlig_version b.platform.tag.render).data.splitOn '\n'
      = ["Wheel-Version: 1.0".data,
          ("Generator: zlig " ++ zlig_version).data,
          "Root-Is-Purelib: false".data,
          ("Tag: " ++ b.platform.tag.render).data, []] := by
  constructor
  · have hgen := write_metadata_generic_no_wheel b generic [] (by simp)
    simp only [WheelBuilder.write_metadata]
    have hw : b._write_to_zip_entry
        (generic.foldl (fun acc e => b._write_to_zip_entry acc e.1 e.2 true) [])
        (b.dist_info ++ "/WHEEL")
        (wheel_template_render zlig_version b.platform.tag.render) false
        = (generic.foldl (fun acc e => b._write_to_zip_entry acc e.1 e.2 true) [])
          ++ [(b.dist_info ++ "/WHEEL",
              wheel_template_render zlig_version b.platform.tag.render)] := by
      simp [WheelBuilder._write_to_zip_entry]
    rw [hw, List.filter_append, hgen]
    simp
  · have hdata : (wheel_template_render zlig_version b.platform.tag.render).data
        = List.intercalate ['\n']
          ["Wheel-Version: 1.0".data,
            ("Generator: zlig " ++ zlig_version).data,
            "Root-Is-Purelib: false".data,
            ("Tag: " ++ b.platform.tag.render).data, []] := by
      simp [wheel_template_render, List.intercalate, List.intersperse]
    rw [hdata]
    apply List.splitOn_intercalate
    · intro l hl
      simp only [List.mem_cons, List.not_mem_nil, or_false] at hl
      rcases hl with rfl | rfl | rfl | rfl | rfl
      · decide
      · simp only [String.data_append, List.mem_append, not_or]
        exact ⟨by decide, hv⟩
      · decide
      · simp only [String.data_append, List.mem_append, not_or]
        exact ⟨by decide, ht⟩
      · simp
    · simp

/-- Witness for C10: a zero-extension builder on a cp39/linux platform
writes exactly one WHEEL entry holding the four expected lines. -/
theorem claim_C10_witness :
    (WheelBuilder.write_metadata
        ⟨[], [], "foo", ["foo"], "foo-1.0.dist-info",
          ⟨"posix", 3, 9, ".so", ⟨"cp39", "cp39", "linux_x86_64"⟩⟩⟩
        "0.1" [("foo-1.0.dist-info/METADATA", "meta"),
          ("foo-1.0.dist-info/WHEEL", "flit wheel")]).filter
        (fun e => e.1 = "foo-1.0.dist-info" ++ "/WHEEL")
      = [("foo-1.0.dist-info" ++ "/WHEEL",
          wheel_template_render "0.1" (Tag.render ⟨"cp39", "cp39", "linux_x86_64"⟩))]
    ∧ (wheel_template_render "0.1"
        (Tag.render ⟨"cp39", "cp39", "linux_x86_64"⟩)).data.splitOn '\n'
      = ["Wheel-Version: 1.0".data, ("Generator: zlig " ++ "0.1").data,
          "Root-Is-Purelib: false".data,
          ("Tag: " ++ Tag.render ⟨"cp39", "cp39", "linux_x86_64"⟩).data, []] :=
  claim_C10
    ⟨[], [], "foo", ["foo"], "foo-1.0.dist-info",
      ⟨"posix", 3, 9, ".so", ⟨"cp39", "cp39", "linux_x86_64"⟩⟩⟩
    "0.1" [("foo-1.0.dist-info/METADATA", "meta"),
      ("foo-1.0.dist-info/WHEEL", "flit wheel")]
    (by decide) (by decide)

/-! ## Claim C7 -/

/-- Comparing a file with itself always succeeds (equal stat signature,
shallow short-circuit). -/
theorem filecmp_cmp_self (f : File) : filecmp_cmp f f = true := by
  simp [filecmp_cmp]

/-- Byte-identical files compare equal regardless of their mtimes: either
the stat signatures agree (shallow short-circuit) or the contents are
compared and agree. -/
theorem filecmp_cmp_of_content (cf tf : File) (h : tf.content = cf.content) :
    filecmp_cmp cf tf = true := by
  by_cases hm : cf.mtime = tf.mtime <;> simp [filecmp_cmp, h, hm]

/-- Case analysis of one artifact-copy step: the compiled file exists, and
either the comparison succeeded and nothing changed, or the target was
overwritten with the compiled file (content and mtime). -/
theorem copy_artifact_cases (fs : FS) (c t : Path) (fs' : FS) (w : Bool)
    (h : copy_artifact fs c t = some (fs', w)) :
    ∃ cf, fs c = some cf ∧
      ((∃ tf, fs t = some tf ∧ filecmp_cmp cf tf = true ∧ fs' = fs ∧ w = false)
        ∨ (fs' = fsSet fs t cf ∧ w = true)) := by
  cases hc : fs c with
  | none => simp [copy_artifact, hc] at h
  | some cf =>
    refine ⟨cf, rfl, ?_⟩
    cases ht : fs t with
    | none =>
      simp only [copy_artifact, hc, ht] at h
      simp only [Option.some.injEq, Prod.mk.injEq] at h
      exact Or.inr ⟨h.1.symm, h.2.symm⟩
    | some tf =>
      by_cases hcmp : filecmp_cmp cf tf = true
      · simp only [copy_artifact, hc, ht, hcmp, if_true] at h
        simp only [Option.some.injEq, Prod.mk.injEq] at h
        exact Or.inl ⟨tf, rfl, hcmp, h.1.symm, h.2.symm⟩
      · have hcmpf : filecmp_cmp cf tf = false := by simpa using hcmp
        have h' : (some (fsSet fs t cf, true) : Option (FS × Bool)) = some (fs', w) := by
          rw [← h]
          simp [copy_artifact, hc, ht, hcmpf]
        simp only [Option.some.injEq, Prod.mk.injEq] at h'
        exact Or.inr ⟨h'.1.symm, h'.2.symm⟩

/-- One artifact-copy step only ever writes to its target path. -/
theorem copy_artifact_outside (fs : FS) (c t : Path) (fs' : FS) (w : Bool)
    (h : copy_artifact fs c t = some (fs', w)) (p : Path) (hp : p ≠ t) :
    fs' p = fs p := by
  obtain ⟨cf, _, hcase⟩ := copy_artifact_cases fs c t fs' w h
  rcases hcase with ⟨tf, _, _, rfl, _⟩ | ⟨rfl, _⟩
  · rfl
  · simp [fsSet, hp]

/-- The artifact-copy loop only ever writes to the target paths of its
jobs. -/
theorem copy_artifacts_outside (jobs : List (Path × Path)) :
    ∀ (fs fs' : FS) (n : Nat), copy_artifacts fs jobs = some (fs', n) →
      ∀ p : Path, p ∉ jobs.map Prod.snd → fs' p = fs p := by
  induction jobs with
  | nil =>
    intro fs fs' n h p _
    have h' : (some (fs, 0) : Option (FS × Nat)) = some (fs', n) := h
    simp only [Option.some.injEq, Prod.mk.injEq] at h'
    rw [← h'.1]
  | cons j rest ih =>
    intro fs fs' n h p hp
    obtain ⟨c, t⟩ := j
    simp only [copy_artifacts] at h
    cases h1 : copy_artifact fs c t with
    | none => rw [h1] at h; simp at h
    | some r =>
      obtain ⟨fs1, w⟩ := r
      rw [h1] at h
      dsimp only at h
      cases h2 : copy_artifacts fs1 rest with
      | none => rw [h2] at h; dsimp only at h; exact absurd h (by simp)
      | some r2 =>
        obtain ⟨fs2, m⟩ := r2
        rw [h2] at h
        dsimp only at h
        simp only [Option.some.injEq, Prod.mk.injEq] at h
        simp only [List.map_cons, List.mem_cons, not_or] at hp
        rw [← h.1, ih fs1 fs2 m h2 p hp.2]
        exact copy_artifact_outside fs c t fs1 w h1 p hp.1

/-- After one full artifact-copy pass, every job's target holds a file the
comparison deems equal to its (untouched) compiled artifact — provided
the jobs' target paths are pairwise distinct and no compiled path is also
a target path. -/
theorem copy_artifacts_established (jobs : List (Path × Path)) :
    ∀ (fs fs' : FS) (n : Nat), copy_artifacts fs jobs = some (fs', n) →
      (jobs.map Prod.snd).Nodup →
      (∀ j ∈ jobs, ∀ j' ∈ jobs, j.1 ≠ j'.2) →
      ∀ j ∈ jobs, ∃ cf tf, fs' j.1 = some cf ∧ fs' j.2 = some tf
        ∧ filecmp_cmp cf tf = true := by
  induction jobs with
  | nil => intro fs fs' n _ _ _ j hj; exact absurd hj (List.not_mem_nil j)
  | cons hd rest ih =>
    intro fs fs' n h hnodup hct j hj
    obtain ⟨c, t⟩ := hd
    simp only [copy_artifacts] at h
    cases h1 : copy_artifact fs c t with
    | none => rw [h1] at h; simp at h
    | some r =>
      obtain ⟨fs1, w⟩ := r
      rw [h1] at h
      dsimp only at h
      cases h2 : copy_artifacts fs1 rest with
      | none => rw [h2] at h; dsimp only at h; exact absurd h (by simp)
      | some r2 =>
        obtain ⟨fs2, m⟩ := r2
        rw [h2] at h
        dsimp only at h
        simp only [Option.some.injEq, Prod.mk.injEq] at h
        have hfs' : fs' = fs2 := h.1.symm
        subst hfs'
        have hmemhd : ((c, t) : Path × Path) ∈ (c, t) :: rest :=
          List.mem_cons_self _ _
        rcases List.mem_cons.mp hj with rfl | hjr
        · have hcnot : c ∉ rest.map Prod.snd := by
            intro hcmem
            obtain ⟨j', hj', hj'2⟩ := List.mem_map.mp hcmem
            exact hct (c, t) hmemhd j' (List.mem_cons_of_mem _ hj') hj'2.symm
          have htnot : t ∉ rest.map Prod.snd := by
            have := hnodup
            simp only [List.map_cons, List.nodup_cons] at this
            exact this.1
          have hcO : fs' c = fs1 c := copy_artifacts_outside rest fs1 fs' m h2 c hcnot
          have htO : fs' t = fs1 t := copy_artifacts_outside rest fs1 fs' m h2 t htnot
          have hcnet : c ≠ t := hct (c, t) hmemhd (c, t) hmemhd
          obtain ⟨cf, hc, hcase⟩ := copy_artifact_cases fs c t fs1 w h1
          rcases hcase with ⟨tf, ht, hcmp, rfl, _⟩ | ⟨rfl, _⟩
          · exact ⟨cf, tf, by rw [hcO]; exact hc, by rw [htO]; exact ht, hcmp⟩
          · refine ⟨cf, cf, ?_, ?_, filecmp_cmp_self cf⟩
            · rw [hcO]; simp [fsSet, hcnet]; exact hc
            · rw [htO]; simp [fsSet]
        · have hnodup' : (rest.map Prod.snd).Nodup := by
            simp only [List.map_cons, List.nodup_cons] at hnodup
            exact hnodup.2
          have hct' : ∀ a ∈ rest, ∀ b ∈ rest, a.1 ≠ b.2 := fun a ha b hb =>
            hct a (List.mem_cons_of_mem _ ha) b (List.mem_cons_of_mem _ hb)
          exact ih fs1 fs' m h2 hnodup' hct' j hjr

/-- When every job's target already compares equal to its compiled
artifact, the artifact-copy loop performs no write and leaves the
filesystem untouched. -/
theorem copy_artifacts_stable (jobs : List (Path × Path)) (fs : FS)
    (h : ∀ j ∈ jobs, ∃ cf tf, fs j.1 = some cf ∧ fs j.2 = some tf
      ∧ filecmp_cmp cf tf = true) :
    copy_artifacts fs jobs = some (fs, 0) := by
  induction jobs with
  | nil => rfl
  | cons hd rest ih =>
    obtain ⟨c, t⟩ := hd
    obtain ⟨cf, tf, hc, ht, hcmp⟩ := h (c, t) (List.mem_cons_self _ _)
    have h1 : copy_artifact fs c t = some (fs, false) := by
      simp [copy_artifact, hc, ht, hcmp]
    have h2 : copy_artifacts fs rest = some (fs, 0) :=
      ih (fun j hj => h j (List.mem_cons_of_mem _ hj))
    simp [copy_artifacts, h1, h2]

/-- C7 (amended): the artifact-copy step (1) performs no write for an
extension whose target exists and is byte-identical to the compiled
artifact; (2) run twice with unchanged compiled output — targets pairwise
distinct and disjoint from compiled paths — the second run performs zero
writes and leaves the filesystem unchanged; (3) an absent target is
written with the compiled artifact, metadata (mtime) preserved; and (4)
an existing target is overwritten exactly when `filecmp.cmp` (shallow
mode) fails — byte-differing content alone does not force an overwrite
when size and mtime coincide. -/
theorem claim_C7_amended :
    (∀ (fs : FS) (c t : Path) (cf tf : File), fs c = some cf → fs t = some tf →
        tf.content = cf.content → copy_artifact fs c t = some (fs, false))
    ∧ (∀ (jobs : List (Path × Path)) (fs fs' : FS) (n : Nat),
        (jobs.map Prod.snd).Nodup →
        (∀ j ∈ jobs, ∀ j' ∈ jobs, j.1 ≠ j'.2) →
        copy_artifacts fs jobs = some (fs', n) →
        copy_artifacts fs' jobs = some (fs', 0))
    ∧ (∀ (fs : FS) (c t : Path) (cf : File), fs c = some cf → fs t = none →
        copy_artifact fs c t = some (fsSet fs t cf, true))
    ∧ (∀ (fs : FS) (c t : Path) (cf tf : File), fs c = some cf → fs t = some tf →
        filecmp_cmp cf tf = false → copy_artifact fs c t = some (fsSet fs t cf, true)) := by
  refine ⟨?_, ?_, ?_, ?_⟩
  · intro fs c t cf tf hc ht hcontent
    simp [copy_artifact, hc, ht, filecmp_cmp_of_content cf tf hcontent]
  · intro jobs fs fs' n hnodup hct h
    exact copy_artifacts_stable jobs fs'
      (copy_artifacts_established jobs fs fs' n h hnodup hct)
  · intro fs c t cf hc ht
    simp [copy_artifact, hc, ht]
  · intro fs c t cf tf hc ht hcmp
    simp [copy_artifact, hc, ht, hcmp]

/-- C7 (counterexample to the claim as stated): a target that exists and
byte-differs from the compiled artifact but has the same size and mtime
is left untouched — `filecmp.cmp` in its default shallow mode compares
stat signatures first — so "when the target differs, the compiled
artifact overwrites it" fails on the code. -/
theorem claim_C7_counterexample :
    copy_artifact
      (fun p => if p = ["zig-out", "lib", "librex.so"] then some ⟨[0], 5⟩
        else if p = ["foo", "rex.so"] then some ⟨[1], 5⟩ else none)
      ["zig-out", "lib", "librex.so"] ["foo", "rex.so"]
      = some ((fun p => if p = ["zig-out", "lib", "librex.so"] then some ⟨[0], 5⟩
          else if p = ["foo", "rex.so"] then some ⟨[1], 5⟩ else none), false)
    ∧ ([1] : List Nat) ≠ [0] :=
  ⟨rfl, by decide⟩

/-- Witness for C7: all four parts applied at concrete filesystems — a
byte-identical target with a different mtime is skipped; a one-job run
that wrote its target is a no-op when run again; an absent target is
created; a size-differing target is overwritten. -/
theorem claim_C7_witness :
    copy_artifact
        (fun p => if p = ["c"] then some ⟨[0], 5⟩
          else if p = ["t"] then some ⟨[0], 7⟩ else none) ["c"] ["t"]
      = some ((fun p => if p = ["c"] then some ⟨[0], 5⟩
          else if p = ["t"] then some ⟨[0], 7⟩ else none), false)
    ∧ copy_artifacts
        (fsSet (fun p => if p = ["c"] then some ⟨[0], 5⟩ else none) ["t"] ⟨[0], 5⟩)
        [(["c"], ["t"])]
      = some (fsSet (fun p => if p = ["c"] then some ⟨[0], 5⟩ else none) ["t"] ⟨[0], 5⟩, 0)
    ∧ copy_artifact (fun p => if p = ["c"] then some ⟨[0], 5⟩ else none) ["c"] ["t"]
      = some (fsSet (fun p => if p = ["c"] then some ⟨[0], 5⟩ else none) ["t"] ⟨[0], 5⟩, true)
    ∧ copy_artifact
        (fun p => if p = ["c"] then some ⟨[0], 5⟩
          else if p = ["t"] then some ⟨[1, 1], 9⟩ else none) ["c"] ["t"]
      = some (fsSet
          (fun p => if p = ["c"] then some ⟨[0], 5⟩
            else if p = ["t"] then some ⟨[1, 1], 9⟩ else none) ["t"] ⟨[0], 5⟩, true) := by
  refine ⟨?_, ?_, ?_, ?_⟩
  · exact claim_C7_amended.1
      (fun p => if p = ["c"] then some ⟨[0], 5⟩
        else if p = ["t"] then some ⟨[0], 7⟩ else none) ["c"] ["t"]
      ⟨[0], 5⟩ ⟨[0], 7⟩ (by decide) (by decide) (by decide)
  · exact claim_C7_amended.2.1 [(["c"], ["t"])]
      (fun p => if p = ["c"] then some ⟨[0], 5⟩ else none)
      (fsSet (fun p => if p = ["c"] then some ⟨[0], 5⟩ else none) ["t"] ⟨[0], 5⟩)
      1 (by decide) (by decide) rfl
  · exact claim_C7_amended.2.2.1
      (fun p => if p = ["c"] then some ⟨[0], 5⟩ else none) ["c"] ["t"]
      ⟨[0], 5⟩ (by decide) (by decide)
  · exact claim_C7_amended.2.2.2
      (fun p => if p = ["c"] then some ⟨[0], 5⟩
        else if p = ["t"] then some ⟨[1, 1], 9⟩ else none) ["c"] ["t"]
      ⟨[0], 5⟩ ⟨[1, 1], 9⟩ (by decide) (by decide) (by decide)

/-! ## Claim C5 -/

/-- Decimal digit characters are never an underscore. -/
theorem digitChar_ne_underscore : ∀ m, m < 10 → Nat.digitChar m ≠ '_' := by
  decide

/-- The accumulator-passing decimal rendering never produces an
underscore. -/
theorem underscore_not_mem_toDigitsCore (f : Nat) :
    ∀ (n : Nat) (acc : List Char), '_' ∉ acc →
      '_' ∉ Nat.toDigitsCore 10 f n acc := by
  induction f with
  | zero => intro n acc hacc; simpa [Nat.toDigitsCore] using hacc
  | succ f ih =>
    intro n acc hacc
    have hd : Nat.digitChar (n % 10) ≠ '_' :=
      digitChar_ne_underscore (n % 10) (Nat.mod_lt _ (by norm_num))
    have hacc' : '_' ∉ Nat.digitChar (n % 10) :: acc := by
      intro hmem
      rcases List.mem_cons.mp hmem with heq | hmem2
      · exact hd heq.symm
      · exact hacc hmem2
    simp only [Nat.toDigitsCore]
    split
    · exact hacc'
    · exact ih (n / 10) (Nat.digitChar (n % 10) :: acc) hacc'

/-- The decimal rendering of a natural number contains no underscore. -/
theorem underscore_not_mem_repr (n : Nat) : '_' ∉ (Nat.repr n).data := by
  have hdata : (Nat.repr n).data = Nat.toDigitsCore 10 (n + 1) n [] := rfl
  rw [hdata]
  exact underscore_not_mem_toDigitsCore (n + 1) n [] (by simp)

/-- For an underscore-free name, the underscores of the dot-to-underscore
replacement are exactly the original dots. -/
theorem count_underscore_map_dot (l : List Char) (h : '_' ∉ l) :
    (l.map (fun c => if c = '.' then '_' else c)).count '_' = l.count '.' := by
  induction l with
  | nil => rfl
  | cons a l ih =>
    simp only [List.mem_cons, not_or] at h
    by_cases ha : a = '.'
    · subst ha
      simp [List.count_cons, ih h.2]
    · have hif : (if a = '.' then '_' else a) = a := if_neg ha
      have hne : ¬(a = '_') := fun hcon => h.1 hcon.symm
      simp [List.count_cons, hif, ih h.2, ha, hne]

/-- The dot-to-underscore replacement is injective on underscore-free
character lists. -/
theorem map_dot_injective (l1 : List Char) :
    ∀ l2 : List Char, '_' ∉ l1 → '_' ∉ l2 →
      l1.map (fun c => if c = '.' then '_' else c)
        = l2.map (fun c => if c = '.' then '_' else c) →
      l1 = l2 := by
  induction l1 with
  | nil =>
    intro l2 _ _ h
    cases l2 with
    | nil => rfl
    | cons b l2' => simp at h
  | cons a l ih =>
    intro l2 h1 h2 h
    cases l2 with
    | nil => simp at h
    | cons b l2' =>
      simp only [List.map_cons, List.cons.injEq] at h
      simp only [List.mem_cons, not_or] at h1 h2
      have hab : a = b := by
        by_cases ha : a = '.' <;> by_cases hb : b = '.'
        · rw [ha, hb]
        · rw [if_pos ha, if_neg hb] at h
          exact absurd h.1 h2.1
        · rw [if_neg ha, if_pos hb] at h
          exact absurd h.1.symm h1.1
        · rw [if_neg ha, if_neg hb] at h
          exact h.1
      rw [hab, ih l2' h1.2 h2.2 h.2]

/-- C5 (counterexample to the claim as stated): the names `a.b_c` and
`a_b.c` are distinct, yet both flatten to `a_b_c` with one dot each, so
`varname` sends both to `a_b_c_1`. -/
theorem claim_C5_counterexample :
    _Extension.varname ⟨"a.b_c", []⟩ = _Extension.varname ⟨"a_b.c", []⟩
    ∧ ("a.b_c" : String) ≠ "a_b.c" := by
  refine ⟨by decide, by decide⟩

/-- C5 (amended): `varname` is collision-resistant on extension names that
contain no underscore (in particular on ordinary dotted Python module
paths): two such extensions with distinct names get distinct build-script
identifiers. -/
theorem claim_C5_amended (e1 e2 : _Extension)
    (h1 : '_' ∉ e1.name.data) (h2 : '_' ∉ e2.name.data)
    (h : e1.varname = e2.varname) : e1.name = e2.name := by
  have hd : ((e1.name.data.map (fun c => if c = '.' then '_' else c)) ++ ['_'])
        ++ (Nat.repr (e1.name.data.count '.')).data
      = ((e2.name.data.map (fun c => if c = '.' then '_' else c)) ++ ['_'])
        ++ (Nat.repr (e2.name.data.count '.')).data :=
    congrArg String.data h
  have hr1 : (Nat.repr (e1.name.data.count '.')).data.count '_' = 0 :=
    List.count_eq_zero.mpr (underscore_not_mem_repr _)
  have hr2 : (Nat.repr (e2.name.data.count '.')).data.count '_' = 0 :=
    List.count_eq_zero.mpr (underscore_not_mem_repr _)
  have hcnt := congrArg (List.count '_') hd
  simp only [List.count_append, hr1, hr2,
    count_underscore_map_dot e1.name.data h1,
    count_underscore_map_dot e2.name.data h2] at hcnt
  have hc : e1.name.data.count '.' = e2.name.data.count '.' := by
    have hone : (['_'] : List Char).count '_' = 1 := by decide
    rw [hone] at hcnt
    omega
  rw [hc] at hd
  have hmap := List.append_cancel_right (List.append_cancel_right hd)
  exact String.ext (map_dot_injective e1.name.data e2.name.data h1 h2 hmap)

/-- Witness for C5: two extensions sharing the underscore-free name
`foo.bar` (with different source patterns) have equal identifiers, and the
theorem concludes their names are equal. -/
theorem claim_C5_witness :
    (⟨"foo.bar", []⟩ : _Extension).name = (⟨"foo.bar", ["src/a.zig"]⟩ : _Extension).name :=
  claim_C5_amended ⟨"foo.bar", []⟩ ⟨"foo.bar", ["src/a.zig"]⟩
    (by decide) (by decide) (by decide)
